import Mathlib

/-!
Verification of the CV scoring-and-aggregation engine of the repository.

The visible source ships the frontend (`cv_review/frontend/app/dashboard/page.tsx`,
`BestCandidateCard`); the backend core (Analysis Store, Scoring Orchestrator,
Metrics Aggregator, Best-Candidate Selector, Report Generator) is not among the
visible files, so those components are modelled from the specification and each
such definition says so in its doc comment.  Scores are modelled as rationals.
-/

namespace CvReview

/-- Modelled from the spec: `Area` is "a small fixed enumerated set (e.g. Legal,
Tech, …) known at compile time"; the constructors are listed in the fixed
enumeration order used for tie-breaking (the spec's examples use Legal, Tech,
Finance). -/
inductive Area where
  | Legal
  | Tech
  | Finance
deriving DecidableEq, Repr

/-- The fixed Area set, in enumeration order (`AREAS` in `lib/types`). -/
def Area.all : List Area := [Area.Legal, Area.Tech, Area.Finance]

/-- Position of an area in the fixed enumeration order. -/
def Area.idx : Area → Nat
  | Area.Legal => 0
  | Area.Tech => 1
  | Area.Finance => 2

/-- Modelled from the spec: ordinal qualification tier
(Entry < Intermediate < Advanced < Expert). -/
inductive Level where
  | Entry
  | Intermediate
  | Advanced
  | Expert
deriving DecidableEq, Repr

/-- Modelled from the spec: a Specialization is a pair (name, Level). -/
structure Specialization where
  name : String
  level : Level
deriving DecidableEq, Repr

/-- An `area_scores` mapping, as stored on a record: a keyed collection of
per-area numeric scores.  Modelled as an association list so that the
"domain is exactly the full Area set" invariant is a real property (the
frontend source treats the mapping as possibly missing keys, see
`BestCandidateCard`). -/
abbrev AreaScores : Type := List (Area × ℚ)

/-- Key lookup in an `area_scores` mapping. -/
def lookupScore : AreaScores → Area → Option ℚ
  | [], _ => none
  | (b, q) :: rest, a => if b = a then some q else lookupScore rest a

/-- The score a record holds for an area; on the (invariant-respecting) full
domain the default is never consulted. -/
def scoreOf (m : AreaScores) (a : Area) : ℚ := (lookupScore m a).getD 0

/-- Modelled from the spec: `most_fitted_area` is "the Area with maximum score",
ties broken by Area enumeration order.  The scan walks `Area.all` in order and
replaces the incumbent only on a strictly greater score, so the first maximal
area in enumeration order wins. -/
def pickBestArea (m : AreaScores) : Area → List Area → Area
  | best, [] => best
  | best, a :: rest =>
    if scoreOf m a > scoreOf m best then pickBestArea m a rest
    else pickBestArea m best rest

/-- Modelled from the spec: derive `most_fitted_area` from a record's own
`area_scores` (§4.4). -/
def mostFittedArea (m : AreaScores) : Area := pickBestArea m Area.Legal Area.all

/-- Modelled from the spec: the central `AnalysisRecord` entity (§3).
`unscored_areas` is the instrumentation flag for areas whose grading failed
after retries (§4.2 step 4). -/
structure AnalysisRecord where
  id : String
  filename : String
  timestamp : Nat
  area_scores : AreaScores
  most_fitted_area : Area
  specializations : List Specialization
  candidate_summary : Option String
  analysis_time_seconds : ℚ
  api_calls : Nat
  tokens_used : Nat
  model_used : String
  unscored_areas : List Area

/-- Well-formedness of a stored `area_scores` mapping: its key list is exactly
the full Area set (no missing, no extra keys) and every value lies in [0, 5]. -/
def ScoresWellFormed (m : AreaScores) : Prop :=
  m.map Prod.fst = Area.all ∧ ∀ p ∈ m, 0 ≤ p.2 ∧ p.2 ≤ 5

/-- Modelled from the spec: outcome of grading one area with the external model
after the retry/fallback policy has run: `none` means the area failed after the
retry budget was exhausted; `some` carries the numeric score (requested in
[0, 5]), the Specialization findings scoped to that area, and the sub-call
instrumentation (api calls and tokens, retries included). -/
structure GradeOutcome where
  score : ℚ
  specs : List Specialization
  api_calls : Nat
  tokens : Nat

/-- Modelled from the spec: the sentinel score given to an area that failed all
grading retries (§9 assumes a low sentinel score plus an instrumentation
flag, not exclusion). -/
def sentinelScore : ℚ := 0

/-- Modelled from the spec: build the stored `area_scores` from the per-area
responses: every area of the fixed set gets exactly one entry, keyed by its
Area; a failed area gets the sentinel score (§4.2 steps 4 and 6). -/
def buildAreaScores (grade : Area → Option GradeOutcome) : AreaScores :=
  Area.all.map (fun a => (a, match grade a with | some g => g.score | none => sentinelScore))

/-- Modelled from the spec: `submit(cv_text, filename) → AnalysisRecord`
(§4.2).  External nondeterminism (the per-area grading outcomes after
retries/fallback, the elapsed wall time and the model identifier) enters as
arguments.  `none` means the submission fails outright — empty/unextractable
CV text, or every area failed after retries — and no record is created;
otherwise the aggregated record is returned (and appended by the caller). -/
def submit (cv_text filename : String) (id : String) (timestamp : Nat)
    (elapsed : ℚ) (model : String) (grade : Area → Option GradeOutcome) :
    Option AnalysisRecord :=
  if cv_text = "" then none
  else if Area.all.all (fun a => (grade a).isNone) then none
  else
    some
      { id := id
        filename := filename
        timestamp := timestamp
        area_scores := buildAreaScores grade
        most_fitted_area := mostFittedArea (buildAreaScores grade)
        specializations := (Area.all.map (fun a => match grade a with | some g => g.specs | none => [])).flatten
        candidate_summary := none
        analysis_time_seconds := elapsed
        api_calls := (Area.all.map (fun a => match grade a with | some g => g.api_calls | none => 0)).sum
        tokens_used := (Area.all.map (fun a => match grade a with | some g => g.tokens | none => 0)).sum
        model_used := model
        unscored_areas := Area.all.filter (fun a => (grade a).isNone) }

/-- Modelled from the spec: `append(record)` on the Analysis Store — fails with
Conflict when the id already exists, otherwise persists the record (§4.1). -/
def appendRecord (r : AnalysisRecord) (store : List AnalysisRecord) :
    Option (List AnalysisRecord) :=
  if store.any (fun s => s.id = r.id) then none else some (store ++ [r])

/-- Modelled from the spec: `delete(id)` on the Analysis Store — removes the
record, fails NotFound when absent (§4.1). -/
def deleteRecord (id : String) (store : List AnalysisRecord) :
    Option (List AnalysisRecord) :=
  if store.any (fun s => s.id = id) then some (store.filter (fun s => s.id ≠ id)) else none

/-- Local list update performed by `handleDelete` in the dashboard source
(page.tsx line 46): `prev.filter((a) => a.id !== id)`. -/
def handleDeleteLocal (id : String) (analyses : List AnalysisRecord) : List AnalysisRecord :=
  analyses.filter (fun a => a.id ≠ id)

/-- Modelled from the spec: insert a record into a timestamp-descending list,
keeping the order. -/
def insertByTsDesc (r : AnalysisRecord) : List AnalysisRecord → List AnalysisRecord
  | [] => [r]
  | s :: rest => if s.timestamp ≤ r.timestamp then r :: s :: rest else s :: insertByTsDesc r rest

/-- Modelled from the spec: order records by `timestamp` descending (used by
`list(limit)` and the Report Generator). -/
def sortByTimestampDesc (records : List AnalysisRecord) : List AnalysisRecord :=
  records.foldr insertByTsDesc []

/-- Modelled from the spec: `list(limit)` — records ordered by `timestamp`
descending, truncated to `limit` (§4.1). -/
def listRecords (limit : Nat) (store : List AnalysisRecord) : List AnalysisRecord :=
  (sortByTimestampDesc store).take limit

/-- Modelled from the spec: challenger step of the per-area scan (§4.4): the
challenger `r` replaces the incumbent when its score is strictly greater, or
equal with a strictly greater (more recent) `timestamp`. -/
def pickBetter (a : Area) (r : AnalysisRecord) : Option AnalysisRecord → Option AnalysisRecord
  | none => some r
  | some b =>
    if scoreOf r.area_scores a > scoreOf b.area_scores a
        ∨ (scoreOf r.area_scores a = scoreOf b.area_scores a ∧ r.timestamp > b.timestamp)
    then some r else some b

/-- Modelled from the spec: best record for one area (§4.4): scan all records,
keep the one with the maximum `area_scores[Area]`; exact score ties are broken
by the highest `timestamp` (the most recently created record wins). -/
def computeBestArea (a : Area) : List AnalysisRecord → Option AnalysisRecord
  | [] => none
  | r :: rest => pickBetter a r (computeBestArea a rest)

/-- Modelled from the spec: `computeBest(records) → mapping Area → record |
absent` (§4.4), absent encoded as `none`. -/
def computeBest (records : List AnalysisRecord) : Area → Option AnalysisRecord :=
  fun a => computeBestArea a records

/-- Rendering outcome of the dashboard's best-candidates panel. -/
inductive BestPanel where
  | card (r : AnalysisRecord) (a : Area)
  | noCandidateYet (a : Area)

/-- Dashboard surfacing of the best candidate for the active area (page.tsx
lines 216–226): a `BestCandidateCard` when a candidate exists, otherwise the
"No candidates evaluated for … yet" placeholder — not an error. -/
def renderBestPanel (best : Option AnalysisRecord) (a : Area) : BestPanel :=
  match best with
  | some r => BestPanel.card r a
  | none => BestPanel.noCandidateYet a

/-- Modelled from the spec: the derived `Metrics` view (§4.3); the field names
follow the ones the dashboard page reads. -/
structure Metrics where
  total_analyses : Nat
  analyses_by_area : Area → Nat
  analyses_by_model : List (String × Nat)
  total_analysis_time_seconds : ℚ
  avg_analysis_time_seconds : ℚ
  min_analysis_time_seconds : ℚ
  max_analysis_time_seconds : ℚ
  total_api_calls : Nat
  total_tokens : Nat
  total_human_time_saved_minutes : ℚ
  avg_human_time_saved_minutes : ℚ
  recent_times : List ℚ
  human_review_minutes_per_cv : ℚ

/-- Modelled from the spec: per-record estimated human time saved,
`max(0, human_review_minutes_per_cv − analysis_time_seconds / 60)` (§4.3). -/
def timeSavedMinutes (hrm : ℚ) (r : AnalysisRecord) : ℚ :=
  max 0 (hrm - r.analysis_time_seconds / 60)

/-- Modelled from the spec: bump one model's count in the per-model usage
table. -/
def bumpModelCount (model : String) : List (String × Nat) → List (String × Nat)
  | [] => [(model, 1)]
  | (m, k) :: rest => if m = model then (m, k + 1) :: rest else (m, k) :: bumpModelCount model rest

/-- Modelled from the spec: `compute(records) → Metrics`, one pass over the
record collection; every average is guarded by an explicit empty check so an
empty store yields 0 with no division by zero (§4.3). -/
def computeMetrics (hrm : ℚ) (records : List AnalysisRecord) : Metrics :=
  let n := records.length
  let times := records.map (fun r => r.analysis_time_seconds)
  let totalTime := times.sum
  let totalSaved := (records.map (timeSavedMinutes hrm)).sum
  { total_analyses := n
    analyses_by_area := fun a => (records.filter (fun r => r.most_fitted_area = a)).length
    analyses_by_model := records.foldl (fun acc r => bumpModelCount r.model_used acc) []
    total_analysis_time_seconds := totalTime
    avg_analysis_time_seconds := if n = 0 then 0 else totalTime / n
    min_analysis_time_seconds := match times with | [] => 0 | t :: ts => ts.foldl min t
    max_analysis_time_seconds := match times with | [] => 0 | t :: ts => ts.foldl max t
    total_api_calls := (records.map (fun r => r.api_calls)).sum
    total_tokens := (records.map (fun r => r.tokens_used)).sum
    total_human_time_saved_minutes := totalSaved
    avg_human_time_saved_minutes := if n = 0 then 0 else totalSaved / n
    recent_times := (((sortByTimestampDesc records).take 30).reverse).map (fun r => r.analysis_time_seconds)
    human_review_minutes_per_cv := hrm }

/-- Derived ratio shown on the dashboard (page.tsx line 242):
`total_api_calls / Math.max(1, total_analyses)` — the denominator is clamped
to at least 1. -/
def apiCallsPerCv (m : Metrics) : ℚ :=
  (m.total_api_calls : ℚ) / max 1 (m.total_analyses : ℚ)

/-- Derived ratio shown on the dashboard (page.tsx line 250):
`total_tokens / Math.max(1, total_analyses)`. -/
def tokensPerCv (m : Metrics) : ℚ :=
  (m.total_tokens : ℚ) / max 1 (m.total_analyses : ℚ)

/-- Modelled from the spec: report filters (§4.5): optional Area, optional
inclusive date range on `timestamp`. -/
structure ReportFilter where
  area : Option Area
  date_from : Option Nat
  date_to : Option Nat

/-- Report output format (§4.5): tabular spreadsheet or print-ready document. -/
inductive ReportFormat where
  | xlsx
  | pdf
deriving DecidableEq, Repr

/-- Modelled from the spec: one report row per candidate: filename, date,
best-fit area, top specializations, full per-area score breakdown (§4.5). -/
structure ReportRow where
  filename : String
  date : Nat
  best_fit_area : Area
  top_specializations : List Specialization
  area_scores : AreaScores

/-- Modelled from the spec: a generated report — the chosen format plus the
row set; the row shape is the same whether or not any record matched. -/
structure Report where
  format : ReportFormat
  rows : List ReportRow

/-- Modelled from the spec: filter match (§4.5): optional Area exact match
against `most_fitted_area`, optional inclusive date range on `timestamp`. -/
def matchesFilter (flt : ReportFilter) (r : AnalysisRecord) : Bool :=
  (match flt.area with | none => true | some a => decide (r.most_fitted_area = a)) &&
  (match flt.date_from with | none => true | some d => decide (d ≤ r.timestamp)) &&
  (match flt.date_to with | none => true | some d => decide (r.timestamp ≤ d))

/-- Modelled from the spec: the report row of one record (§4.5). -/
def toReportRow (r : AnalysisRecord) : ReportRow :=
  { filename := r.filename
    date := r.timestamp
    best_fit_area := r.most_fitted_area
    top_specializations := r.specializations.take 3
    area_scores := r.area_scores }

/-- Modelled from the spec: `generate(records, filters, format)`: filter the
records, order by `timestamp` descending, emit one row per candidate; `format`
selects the rendering of the same row set (§4.5). -/
def generateReport (records : List AnalysisRecord) (flt : ReportFilter)
    (fmt : ReportFormat) : Report :=
  { format := fmt
    rows := (sortByTimestampDesc (records.filter (matchesFilter flt))).map toReportRow }

/-- Modelled from the spec: the store's mutation path is single-writer —
concurrent `submit` calls are serialized by mutual exclusion around the
read-modify-write-swap cycle (§5) — so the combined effect of N concurrent
submissions is their appends folded over the store in their (arbitrary)
serialization order. -/
def runSubmissions : List AnalysisRecord → List AnalysisRecord → Option (List AnalysisRecord)
  | store, [] => some store
  | store, r :: rest =>
    match appendRecord r store with
    | none => none
    | some store2 => runSubmissions store2 rest

/-- Headline badge score of `BestCandidateCard`
(`const areaScore = candidate.area_scores?.[area] ?? 0`): a missing key
defaults to 0. -/
def headlineScore (m : AreaScores) (a : Area) : ℚ := (lookupScore m a).getD 0

/-- Per-area mini-score list of `BestCandidateCard`
(`(candidate.area_scores?.[a] ?? 1).toFixed(1)`): a missing key defaults
to 1. -/
def miniListScore (m : AreaScores) (a : Area) : ℚ := (lookupScore m a).getD 1

/-- Concrete record builder used for test inputs. -/
def sampleRecord (id : String) (ts : Nat) (legal tech finance : ℚ) : AnalysisRecord :=
  { id := id
    filename := id ++ ".pdf"
    timestamp := ts
    area_scores := [(Area.Legal, legal), (Area.Tech, tech), (Area.Finance, finance)]
    most_fitted_area := mostFittedArea [(Area.Legal, legal), (Area.Tech, tech), (Area.Finance, finance)]
    specializations := []
    candidate_summary := none
    analysis_time_seconds := 30
    api_calls := 7
    tokens_used := 1000
    model_used := "accurate-model"
    unscored_areas := [] }

/-- A concrete grading outcome in which every area succeeds with score 4. -/
def fullGrade : Area → Option GradeOutcome :=
  fun _ => some { score := 4, specs := [], api_calls := 2, tokens := 100 }

/-- A concrete score table with a Legal/Tech tie. -/
def tieScores : AreaScores := [(Area.Legal, 3), (Area.Tech, 3), (Area.Finance, 1)]

/-- A concrete grading outcome in which Tech fails after retries and the other
areas succeed. -/
def partialGrade : Area → Option GradeOutcome :=
  fun a => match a with
  | Area.Tech => none
  | _ => some { score := 4, specs := [], api_calls := 1, tokens := 10 }

/-- A concrete report filter (date range starting at 100) that no sample
record matches. -/
def zeroMatchFilter : ReportFilter :=
  { area := none, date_from := some 100, date_to := none }

/-- Every area is in the fixed enumeration. -/
theorem Area.mem_all (a : Area) : a ∈ Area.all := by
  cases a <;> simp [Area.all]

/-- Looking up any area in a built `area_scores` succeeds and returns the
response score, or the sentinel for a failed area. -/
theorem lookupScore_buildAreaScores (grade : Area → Option GradeOutcome) (a : Area) :
    lookupScore (buildAreaScores grade) a =
      some (match grade a with | some g => g.score | none => sentinelScore) := by
  cases a <;> simp [buildAreaScores, Area.all, lookupScore]

/-- Closed form of the enumeration scan behind `mostFittedArea`. -/
theorem mostFittedArea_eq (m : AreaScores) :
    mostFittedArea m =
      if scoreOf m Area.Tech > scoreOf m Area.Legal then
        (if scoreOf m Area.Finance > scoreOf m Area.Tech then Area.Finance else Area.Tech)
      else
        (if scoreOf m Area.Finance > scoreOf m Area.Legal then Area.Finance else Area.Legal) := by
  simp [mostFittedArea, pickBestArea, Area.all]

/-- Anatomy of a successful submission: the stored fields are exactly the
aggregation of the per-area responses. -/
theorem submit_some_anatomy (cv fn id : String) (ts : Nat) (el : ℚ) (md : String)
    (grade : Area → Option GradeOutcome) (r : AnalysisRecord)
    (h : submit cv fn id ts el md grade = some r) :
    r.area_scores = buildAreaScores grade ∧
    r.most_fitted_area = mostFittedArea (buildAreaScores grade) ∧
    r.unscored_areas = Area.all.filter (fun a => (grade a).isNone) := by
  unfold submit at h
  split at h
  · cases h
  · split at h
    · cases h
    · injection h with h2
      subst h2
      exact ⟨rfl, rfl, rfl⟩

/-- C1: every `AnalysisRecord` created by `submit` satisfies the `area_scores`
invariant — its key list is exactly the full fixed Area set (no missing, no
extra keys) and every value lies in [0, 5] (upstream scores being in the
requested range; the sentinel is 0) — and `delete` preserves the invariant for
every record that remains stored. -/
theorem stored_area_scores_wellFormed
    (cv fn id : String) (ts : Nat) (el : ℚ) (md : String)
    (grade : Area → Option GradeOutcome)
    (hgrade : ∀ a g, grade a = some g → 0 ≤ g.score ∧ g.score ≤ 5)
    (r : AnalysisRecord)
    (hr : submit cv fn id ts el md grade = some r) :
    ScoresWellFormed r.area_scores ∧
    (∀ (did : String) (store out : List AnalysisRecord),
      (∀ s ∈ store, ScoresWellFormed s.area_scores) →
      deleteRecord did store = some out →
      ∀ s ∈ out, ScoresWellFormed s.area_scores) := by
  constructor
  · obtain ⟨hsc, -, -⟩ := submit_some_anatomy cv fn id ts el md grade r hr
    rw [hsc]
    constructor
    · rfl
    · intro p hp
      simp only [buildAreaScores, List.mem_map] at hp
      obtain ⟨a, -, rfl⟩ := hp
      cases hga : grade a with
      | none => norm_num [hga, sentinelScore]
      | some g => simpa [hga] using hgrade a g hga
  · intro did store out hinv hdel s hs
    unfold deleteRecord at hdel
    split at hdel
    · injection hdel with h2
      subst h2
      exact hinv s (List.mem_of_mem_filter hs)
    · cases hdel

/-- C1 witness: a concrete successful submission produces a well-formed
score table, concretely checkable. -/
theorem stored_area_scores_wellFormed_witness :
    ∃ r, submit "cv text" "a.pdf" "id1" 5 30 "m" fullGrade = some r ∧
      ScoresWellFormed r.area_scores := by
  refine ⟨_, rfl, ?_⟩
  exact (stored_area_scores_wellFormed "cv text" "a.pdf" "id1" 5 30 "m" fullGrade
    (by intro a g h; injection h with h2; subst h2; norm_num) _ rfl).1

/-- C2: `most_fitted_area` equals an area of maximal score over the record's
own `area_scores`, with ties broken by the fixed Area enumeration order (the
chosen area's index is least among areas attaining the maximum); on the spec's
example mapping it is Legal; and `submit` stores exactly this derived value. -/
theorem most_fitted_area_spec (m : AreaScores) :
    (∀ a : Area, scoreOf m a ≤ scoreOf m (mostFittedArea m)) ∧
    (∀ a : Area, scoreOf m a = scoreOf m (mostFittedArea m) →
      Area.idx (mostFittedArea m) ≤ Area.idx a) ∧
    mostFittedArea [(Area.Legal, 4.2), (Area.Tech, 3.1), (Area.Finance, 2)] = Area.Legal ∧
    (∀ (cv fn id : String) (ts : Nat) (el : ℚ) (md : String) grade r,
      submit cv fn id ts el md grade = some r →
      r.most_fitted_area = mostFittedArea r.area_scores) := by
  refine ⟨?_, ?_, ?_, ?_⟩
  · intro a
    rw [mostFittedArea_eq]
    split_ifs with h1 h2 h2 <;> cases a <;> linarith
  · intro a
    rw [mostFittedArea_eq]
    split_ifs with h1 h2 h2 <;> cases a <;> simp [Area.idx] <;> intro he <;> linarith
  · norm_num +decide [mostFittedArea, pickBestArea, Area.all, scoreOf, lookupScore]
  · intro cv fn id ts el md grade r hr
    obtain ⟨hsc, hmf, -⟩ := submit_some_anatomy cv fn id ts el md grade r hr
    rw [hsc, hmf]

/-- C2 witness: on the concrete Legal/Tech tie the chosen area's enumeration
index is at most Tech's, and a concrete submission stores the derived value. -/
theorem most_fitted_area_spec_witness :
    Area.idx (mostFittedArea tieScores) ≤ Area.idx Area.Tech ∧
    (∃ r, submit "cv" "b.pdf" "id2" 6 20 "m" fullGrade = some r ∧
      r.most_fitted_area = mostFittedArea r.area_scores) := by
  constructor
  · exact (most_fitted_area_spec tieScores).2.1 Area.Tech (by
      norm_num +decide [tieScores, mostFittedArea, pickBestArea, Area.all, scoreOf, lookupScore])
  · exact ⟨_, rfl,
      (most_fitted_area_spec tieScores).2.2.2 "cv" "b.pdf" "id2" 6 20 "m" fullGrade _ rfl⟩

/-- C4: `submit` fails — no record created — exactly when the CV text is empty
or every area's grading failed after the retry budget; when only some areas
fail the submission still completes, and each failed area carries the sentinel
score in `area_scores` and is flagged as unscored in the record's
instrumentation. -/
theorem submit_failure_spec (cv fn id : String) (ts : Nat) (el : ℚ) (md : String)
    (grade : Area → Option GradeOutcome) :
    (submit cv fn id ts el md grade = none ↔ (cv = "" ∨ ∀ a : Area, grade a = none)) ∧
    (∀ r, submit cv fn id ts el md grade = some r →
      ∀ a : Area, grade a = none →
        lookupScore r.area_scores a = some sentinelScore ∧ a ∈ r.unscored_areas) := by
  constructor
  · constructor
    · intro h
      by_cases hcv : cv = ""
      · exact Or.inl hcv
      · right
        unfold submit at h
        rw [if_neg hcv] at h
        by_cases hall : Area.all.all (fun a => (grade a).isNone) = true
        · intro a
          have := List.all_eq_true.mp hall a (Area.mem_all a)
          simpa [Option.isNone_iff_eq_none] using this
        · rw [if_neg hall] at h
          cases h
    · intro h
      unfold submit
      by_cases hcv : cv = ""
      · rw [if_pos hcv]
      · rw [if_neg hcv]
        rcases h with hcv2 | hall
        · exact absurd hcv2 hcv
        · rw [if_pos]
          exact List.all_eq_true.mpr (fun a _ => by simp [hall a])
  · intro r hr a hga
    obtain ⟨hsc, -, hun⟩ := submit_some_anatomy cv fn id ts el md grade r hr
    constructor
    · rw [hsc, lookupScore_buildAreaScores]
      simp [hga]
    · rw [hun]
      simp [List.mem_filter, Area.mem_all, hga]

/-- C4 witness: with Tech failing after retries and the other areas
succeeding, the submission completes and Tech carries the sentinel score and
the unscored flag. -/
theorem submit_failure_spec_witness :
    ∃ r, submit "cv" "f.pdf" "id3" 1 30 "m" partialGrade = some r ∧
      lookupScore r.area_scores Area.Tech = some sentinelScore ∧
      Area.Tech ∈ r.unscored_areas := by
  refine ⟨_, rfl, ?_⟩
  exact (submit_failure_spec "cv" "f.pdf" "id3" 1 30 "m" partialGrade).2 _ rfl Area.Tech rfl

/-- C5: Metrics over an empty record collection: total count 0, every per-area
and per-model count 0, all totals and averages 0, the most-recent-times trend
empty, and the dashboard's derived ratios 0 — with every division guarded so
no division by zero occurs. -/
theorem computeMetrics_empty (hrm : ℚ) :
    (computeMetrics hrm []).total_analyses = 0 ∧
    (∀ a : Area, (computeMetrics hrm []).analyses_by_area a = 0) ∧
    (computeMetrics hrm []).analyses_by_model = [] ∧
    (computeMetrics hrm []).total_analysis_time_seconds = 0 ∧
    (computeMetrics hrm []).avg_analysis_time_seconds = 0 ∧
    (computeMetrics hrm []).min_analysis_time_seconds = 0 ∧
    (computeMetrics hrm []).max_analysis_time_seconds = 0 ∧
    (computeMetrics hrm []).total_api_calls = 0 ∧
    (computeMetrics hrm []).total_tokens = 0 ∧
    (computeMetrics hrm []).total_human_time_saved_minutes = 0 ∧
    (computeMetrics hrm []).avg_human_time_saved_minutes = 0 ∧
    (computeMetrics hrm []).recent_times = [] ∧
    apiCallsPerCv (computeMetrics hrm []) = 0 ∧
    tokensPerCv (computeMetrics hrm []) = 0 := by
  refine ⟨rfl, fun a => rfl, rfl, rfl, rfl, rfl, rfl, rfl, rfl, rfl, rfl, rfl, ?_, ?_⟩ <;>
    simp [apiCallsPerCv, tokensPerCv, computeMetrics]

/-- C7: the read-side computations are pure functions of the record
collection: equal inputs give identical Metrics, identical best-candidate
selections, and reports with identical row content and ordering. -/
theorem readSide_deterministic (rs1 rs2 : List AnalysisRecord) (hrm : ℚ)
    (flt : ReportFilter) (fmt : ReportFormat) (heq : rs1 = rs2) :
    computeMetrics hrm rs1 = computeMetrics hrm rs2 ∧
    (∀ a : Area, computeBest rs1 a = computeBest rs2 a) ∧
    generateReport rs1 flt fmt = generateReport rs2 flt fmt ∧
    (generateReport rs1 flt fmt).rows = (generateReport rs2 flt fmt).rows := by
  subst heq
  exact ⟨rfl, fun _ => rfl, rfl, rfl⟩

/-- C7 witness: determinism at a concrete store, filter and format. -/
theorem readSide_deterministic_witness :
    (generateReport [sampleRecord "c1" 1 4 3 2] zeroMatchFilter ReportFormat.xlsx).rows =
      (generateReport [sampleRecord "c1" 1 4 3 2] zeroMatchFilter ReportFormat.xlsx).rows := by
  exact (readSide_deterministic [sampleRecord "c1" 1 4 3 2] [sampleRecord "c1" 1 4 3 2]
    30 zeroMatchFilter ReportFormat.xlsx rfl).2.2.2

/-- C9: when the filter matches zero records the Report Generator returns a
well-formed empty report — the chosen format with the same row shape and zero
rows — rather than an error. -/
theorem generateReport_zeroMatch (records : List AnalysisRecord) (flt : ReportFilter)
    (fmt : ReportFormat) (h : ∀ r ∈ records, matchesFilter flt r = false) :
    generateReport records flt fmt = { format := fmt, rows := [] } := by
  have hfil : records.filter (matchesFilter flt) = [] := by
    rw [List.filter_eq_nil_iff]
    intro r hrr
    simp [h r hrr]
  simp [generateReport, hfil, sortByTimestampDesc]

/-- C9 witness: a date filter starting after every sample timestamp yields the
empty report for a concrete one-record store. -/
theorem generateReport_zeroMatch_witness :
    generateReport [sampleRecord "c1" 5 4 3 2] zeroMatchFilter ReportFormat.pdf =
      { format := ReportFormat.pdf, rows := [] } := by
  exact generateReport_zeroMatch _ _ _ (by
    intro r hrr
    rw [List.mem_singleton] at hrr
    subst hrr
    rfl)

/-- C10: in `BestCandidateCard`, when `area_scores` holds a value for the
selected area the headline badge and the per-area mini-score list display the
same number; for a record whose `area_scores` is missing the key, the headline
badge defaults the score to 0 while the mini-score list defaults it to 1, so
the two displays of the same datum disagree. -/
theorem bestCandidateCard_defaults (m : AreaScores) (a : Area) :
    (∀ q, lookupScore m a = some q → headlineScore m a = q ∧ miniListScore m a = q) ∧
    (lookupScore m a = none →
      headlineScore m a = 0 ∧ miniListScore m a = 1 ∧
      headlineScore m a ≠ miniListScore m a) := by
  constructor
  · intro q h
    simp [headlineScore, miniListScore, h]
  · intro h
    simp [headlineScore, miniListScore, h]

/-- C10 witness: for a mapping scored only for Legal, both displays agree on
Legal, but for the missing Tech key the badge shows 0 and the mini list 1. -/
theorem bestCandidateCard_defaults_witness :
    headlineScore [(Area.Legal, 4.2)] Area.Legal = 4.2 ∧
    miniListScore [(Area.Legal, 4.2)] Area.Legal = 4.2 ∧
    headlineScore [(Area.Legal, 4.2)] Area.Tech = 0 ∧
    miniListScore [(Area.Legal, 4.2)] Area.Tech = 1 ∧
    headlineScore [(Area.Legal, 4.2)] Area.Tech ≠ miniListScore [(Area.Legal, 4.2)] Area.Tech := by
  obtain ⟨h1, h2⟩ := (bestCandidateCard_defaults [(Area.Legal, 4.2)] Area.Legal).1 4.2 rfl
  obtain ⟨h3, h4, h5⟩ := (bestCandidateCard_defaults [(Area.Legal, 4.2)] Area.Tech).2 rfl
  exact ⟨h1, h2, h3, h4, h5⟩

/-- The best-candidate scan returns `none` exactly on the empty collection. -/
theorem computeBestArea_eq_none (a : Area) (l : List AnalysisRecord) :
    computeBestArea a l = none ↔ l = [] := by
  cases l with
  | nil => simp [computeBestArea]
  | cons r rest =>
    rw [computeBestArea]
    cases hrest : computeBestArea a rest with
    | none => simp [pickBetter]
    | some b =>
      simp only [pickBetter]
      constructor
      · intro h
        split at h <;> cases h
      · intro h
        exact (List.cons_ne_nil r rest h).elim

/-- The best-candidate scan returns a member attaining the maximal score for
the area; among records tied on that score its timestamp is maximal. -/
theorem computeBestArea_max (a : Area) :
    ∀ (l : List AnalysisRecord) (b : AnalysisRecord), computeBestArea a l = some b →
      b ∈ l ∧ ∀ r ∈ l, scoreOf r.area_scores a ≤ scoreOf b.area_scores a ∧
        (scoreOf r.area_scores a = scoreOf b.area_scores a → r.timestamp ≤ b.timestamp) := by
  intro l
  induction l with
  | nil => intro b h; cases h
  | cons x rest ih =>
    intro b h
    rw [computeBestArea] at h
    cases hrest : computeBestArea a rest with
    | none =>
      rw [hrest] at h
      simp only [pickBetter] at h
      injection h with h2
      subst h2
      have hrest2 : rest = [] := (computeBestArea_eq_none a rest).mp hrest
      subst hrest2
      refine ⟨List.mem_singleton_self _, ?_⟩
      intro r hr
      rw [List.mem_singleton] at hr
      subst hr
      exact ⟨le_refl _, fun _ => le_refl _⟩
    | some b0 =>
      rw [hrest] at h
      simp only [pickBetter] at h
      obtain ⟨hb0mem, hb0max⟩ := ih b0 hrest
      by_cases hc : scoreOf x.area_scores a > scoreOf b0.area_scores a
          ∨ (scoreOf x.area_scores a = scoreOf b0.area_scores a ∧ x.timestamp > b0.timestamp)
      · rw [if_pos hc] at h
        injection h with h2
        subst h2
        refine ⟨List.mem_cons_self _ _, ?_⟩
        intro r hr
        rcases List.mem_cons.mp hr with hr | hr
        · subst hr
          exact ⟨le_refl _, fun _ => le_refl _⟩
        · obtain ⟨hle, htie⟩ := hb0max r hr
          rcases hc with hgt | ⟨heq, hts⟩
          · exact ⟨by linarith, fun he => by linarith⟩
          · refine ⟨by linarith, fun he => ?_⟩
            have h3 := htie (by linarith)
            omega
      · rw [if_neg hc] at h
        injection h with h2
        subst h2
        push_neg at hc
        obtain ⟨hle2, hts2⟩ := hc
        refine ⟨List.mem_cons_of_mem _ hb0mem, ?_⟩
        intro r hr
        rcases List.mem_cons.mp hr with hr | hr
        · subst hr
          exact ⟨hle2, fun he => hts2 he⟩
        · exact hb0max r hr

/-- C3: for every area, the Best-Candidate Selector picks a stored record of
maximal score for that area, breaking exact score ties by the highest
timestamp (the most recently created record wins); the empty collection maps
to absent, which the dashboard surfaces as the "no candidate yet" placeholder
rather than an error; and the spec's three-record Legal seed {4.2, 3.9, 4.2}
with timestamps 1 < 2 < 3 selects the latest 4.2 record. -/
theorem computeBest_spec (a : Area) (records : List AnalysisRecord) :
    (computeBest records a = none ↔ records = []) ∧
    (∀ b, computeBest records a = some b →
      b ∈ records ∧ ∀ r ∈ records,
        scoreOf r.area_scores a ≤ scoreOf b.area_scores a ∧
        (scoreOf r.area_scores a = scoreOf b.area_scores a → r.timestamp ≤ b.timestamp)) ∧
    renderBestPanel (computeBest ([] : List AnalysisRecord) a) a = BestPanel.noCandidateYet a ∧
    computeBest [sampleRecord "t1" 1 4.2 0 0, sampleRecord "t2" 2 3.9 0 0,
        sampleRecord "t3" 3 4.2 0 0] Area.Legal = some (sampleRecord "t3" 3 4.2 0 0) := by
  refine ⟨computeBestArea_eq_none a records, computeBestArea_max a records, rfl, ?_⟩
  norm_num +decide [computeBest, computeBestArea, pickBetter, sampleRecord, scoreOf,
    lookupScore, mostFittedArea, pickBestArea, Area.all]

/-- C3 witness: on a concrete two-record collection the selected Legal record
is a member attaining the maximal Legal score. -/
theorem computeBest_spec_witness :
    ∃ b, computeBest [sampleRecord "w1" 1 2 0 0, sampleRecord "w2" 2 5 0 0] Area.Legal
        = some b ∧
      b ∈ [sampleRecord "w1" 1 2 0 0, sampleRecord "w2" 2 5 0 0] ∧
      scoreOf (sampleRecord "w1" 1 2 0 0).area_scores Area.Legal ≤
        scoreOf b.area_scores Area.Legal := by
  have hcb : computeBest [sampleRecord "w1" 1 2 0 0, sampleRecord "w2" 2 5 0 0] Area.Legal
      = some (sampleRecord "w2" 2 5 0 0) := by
    norm_num +decide [computeBest, computeBestArea, pickBetter, sampleRecord, scoreOf,
      lookupScore, mostFittedArea, pickBestArea, Area.all]
  obtain ⟨hmem, hmax⟩ :=
    (computeBest_spec Area.Legal [sampleRecord "w1" 1 2 0 0, sampleRecord "w2" 2 5 0 0]).2.1
      _ hcb
  exact ⟨_, hcb, hmem, (hmax _ (List.mem_cons_self _ _)).1⟩

/-- Unfolding step of the timestamp-descending sort. -/
theorem sortByTimestampDesc_cons (x : AnalysisRecord) (rest : List AnalysisRecord) :
    sortByTimestampDesc (x :: rest) = insertByTsDesc x (sortByTimestampDesc rest) := rfl

/-- Membership travels down through the ordered insert. -/
theorem mem_insertByTsDesc {s r : AnalysisRecord} :
    ∀ {l : List AnalysisRecord}, s ∈ insertByTsDesc r l → s = r ∨ s ∈ l := by
  intro l
  induction l with
  | nil =>
    intro h
    simp only [insertByTsDesc] at h
    exact Or.inl (List.mem_singleton.mp h)
  | cons x rest ih =>
    intro h
    rw [insertByTsDesc] at h
    split at h
    · rcases List.mem_cons.mp h with h | h
      · exact Or.inl h
      · exact Or.inr h
    · rcases List.mem_cons.mp h with h | h
      · exact Or.inr (List.mem_cons.mpr (Or.inl h))
      · rcases ih h with h | h
        · exact Or.inl h
        · exact Or.inr (List.mem_cons.mpr (Or.inr h))

/-- Membership travels down through the timestamp-descending sort. -/
theorem mem_sortByTimestampDesc {s : AnalysisRecord} :
    ∀ {l : List AnalysisRecord}, s ∈ sortByTimestampDesc l → s ∈ l := by
  intro l
  induction l with
  | nil =>
    intro h
    simp [sortByTimestampDesc] at h
  | cons x rest ih =>
    intro h
    rw [sortByTimestampDesc_cons] at h
    rcases mem_insertByTsDesc h with rfl | h
    · exact List.mem_cons_self _ _
    · exact List.mem_cons_of_mem _ (ih h)

/-- Filtering out one record carried by a nodup id drops the length by exactly
one. -/
theorem filter_ne_id_length :
    ∀ (store : List AnalysisRecord) (r : AnalysisRecord), r ∈ store →
      (store.map (fun s => s.id)).Nodup →
      (store.filter (fun s => s.id ≠ r.id)).length + 1 = store.length := by
  intro store
  induction store with
  | nil => intro r h; cases h
  | cons x rest ih =>
    intro r hmem hnd
    rw [List.map_cons, List.nodup_cons] at hnd
    obtain ⟨hxid, hndrest⟩ := hnd
    rcases List.mem_cons.mp hmem with rfl | hmem2
    · rw [List.filter_cons]
      have hcond : (decide (r.id ≠ r.id)) = false := by simp
      rw [hcond]
      simp only [Bool.false_eq_true, if_false]
      have hall : rest.filter (fun s => s.id ≠ r.id) = rest := by
        rw [List.filter_eq_self]
        intro s hs
        simp only [ne_eq, decide_eq_true_eq]
        intro hcon
        exact hxid (hcon ▸ List.mem_map_of_mem (fun t => t.id) hs)
      rw [hall]
      simp
    · rw [List.filter_cons]
      have hcond : (decide (x.id ≠ r.id)) = true := by
        simp only [ne_eq, decide_eq_true_eq]
        intro hcon
        exact hxid (hcon ▸ List.mem_map_of_mem (fun t => t.id) hmem2)
      rw [hcond]
      simp only [if_true]
      have := ih r hmem2 hndrest
      simp only [List.length_cons]
      omega

/-- C6: after `delete(r.id)` succeeds on a store with distinct ids, the store
equals the dashboard's local `handleDelete` filter of the old store, `r` is
gone from the stored set and from `list()`, no area's best candidate is `r`
any more, `total_analyses` drops by exactly one, and every other stored record
is still present, with nothing new added. -/
theorem delete_spec (hrm : ℚ) (limit : Nat) (store out : List AnalysisRecord)
    (r : AnalysisRecord)
    (hmem : r ∈ store)
    (hnodup : (store.map (fun s => s.id)).Nodup)
    (hdel : deleteRecord r.id store = some out) :
    out = handleDeleteLocal r.id store ∧
    r ∉ out ∧
    r ∉ listRecords limit out ∧
    (∀ a : Area, computeBest out a ≠ some r) ∧
    (computeMetrics hrm out).total_analyses + 1 = (computeMetrics hrm store).total_analyses ∧
    (∀ s ∈ store, s.id ≠ r.id → s ∈ out) ∧
    (∀ s ∈ out, s ∈ store) := by
  have hout : out = store.filter (fun s => s.id ≠ r.id) := by
    unfold deleteRecord at hdel
    rw [if_pos] at hdel
    · exact (Option.some.inj hdel).symm
    · rw [List.any_eq_true]
      exact ⟨r, hmem, by simp⟩
  subst hout
  have hnotin : r ∉ store.filter (fun s => s.id ≠ r.id) := by
    intro hc
    simpa using (List.mem_filter.mp hc).2
  refine ⟨rfl, hnotin, ?_, ?_, ?_, ?_, ?_⟩
  · intro hc
    exact hnotin (mem_sortByTimestampDesc (List.mem_of_mem_take hc))
  · intro a hc
    exact hnotin ((computeBestArea_max a _ r hc).1)
  · show (store.filter (fun s => s.id ≠ r.id)).length + 1 = store.length
    exact filter_ne_id_length store r hmem hnodup
  · intro s hs hne
    exact List.mem_filter.mpr ⟨hs, by simpa using hne⟩
  · intro s hs
    exact (List.mem_filter.mp hs).1

/-- C6 witness: deleting the first of two concretely stored records leaves
exactly the other and decrements the metrics total by one. -/
theorem delete_spec_witness :
    (computeMetrics 30 (handleDeleteLocal (sampleRecord "d1" 1 4 3 2).id
        [sampleRecord "d1" 1 4 3 2, sampleRecord "d2" 2 1 2 3])).total_analyses + 1 =
      (computeMetrics 30
        [sampleRecord "d1" 1 4 3 2, sampleRecord "d2" 2 1 2 3]).total_analyses ∧
    sampleRecord "d1" 1 4 3 2 ∉ handleDeleteLocal (sampleRecord "d1" 1 4 3 2).id
        [sampleRecord "d1" 1 4 3 2, sampleRecord "d2" 2 1 2 3] := by
  have h := delete_spec 30 10
    [sampleRecord "d1" 1 4 3 2, sampleRecord "d2" 2 1 2 3]
    (handleDeleteLocal (sampleRecord "d1" 1 4 3 2).id
      [sampleRecord "d1" 1 4 3 2, sampleRecord "d2" 2 1 2 3])
    (sampleRecord "d1" 1 4 3 2)
    (List.mem_cons_self _ _)
    (by decide)
    rfl
  exact ⟨h.2.2.2.2.1, h.2.1⟩

/-- Serialized appends of id-distinct records that are fresh for the store
always succeed and lose no record. -/
theorem runSubmissions_complete :
    ∀ (incoming store : List AnalysisRecord),
      (incoming.map (fun r => r.id)).Nodup →
      (∀ r ∈ incoming, ∀ s ∈ store, s.id ≠ r.id) →
      ∃ out, runSubmissions store incoming = some out ∧
        (∀ r ∈ incoming, r ∈ out) ∧ (∀ s ∈ store, s ∈ out) ∧
        out.length = store.length + incoming.length := by
  intro incoming
  induction incoming with
  | nil =>
    intro store hnd hfresh
    exact ⟨store, rfl, by simp, fun s hs => hs, by simp [runSubmissions]⟩
  | cons r rest ih =>
    intro store hnd hfresh
    rw [List.map_cons, List.nodup_cons] at hnd
    obtain ⟨hrid, hndrest⟩ := hnd
    have hnone : store.any (fun s => s.id = r.id) = false := by
      rw [List.any_eq_false]
      intro s hs
      simpa using hfresh r (List.mem_cons_self r rest) s hs
    have happ : appendRecord r store = some (store ++ [r]) := by
      unfold appendRecord
      rw [hnone]
      simp
    have hfresh2 : ∀ x ∈ rest, ∀ s ∈ store ++ [r], s.id ≠ x.id := by
      intro x hx s hs
      rcases List.mem_append.mp hs with hs | hs
      · exact hfresh x (List.mem_cons_of_mem r hx) s hs
      · rw [List.mem_singleton] at hs
        subst hs
        intro hcon
        exact hrid (by rw [hcon]; exact List.mem_map_of_mem (fun t => t.id) hx)
    obtain ⟨out, hrun, hin, hsub, hlen⟩ := ih (store ++ [r]) hndrest hfresh2
    refine ⟨out, ?_, ?_, ?_, ?_⟩
    · rw [runSubmissions, happ]
      exact hrun
    · intro x hx
      rcases List.mem_cons.mp hx with rfl | hx
      · exact hsub x (List.mem_append.mpr (Or.inr (List.mem_singleton_self x)))
      · exact hin x hx
    · intro s hs
      exact hsub s (List.mem_append.mpr (Or.inl hs))
    · rw [hlen]
      simp [List.length_append]
      omega

/-- C8: N concurrent submissions with distinct inputs, serialized by the
store's single-writer mutual exclusion around the read-modify-write-swap
cycle, lose no update: for every completion order — any permutation of the
incoming records — the run succeeds, every submitted record and every
previously stored record is in the final store, and the store grows by
exactly N. -/
theorem concurrent_submissions_no_lost_updates
    (store incoming order : List AnalysisRecord)
    (hperm : order.Perm incoming)
    (hnodup : (incoming.map (fun r => r.id)).Nodup)
    (hfresh : ∀ r ∈ incoming, ∀ s ∈ store, s.id ≠ r.id) :
    ∃ out, runSubmissions store order = some out ∧
      (∀ r ∈ incoming, r ∈ out) ∧ (∀ s ∈ store, s ∈ out) ∧
      out.length = store.length + incoming.length := by
  have hnd2 : (order.map (fun r => r.id)).Nodup :=
    ((hperm.map (fun r => r.id)).nodup_iff).mpr hnodup
  have hfresh2 : ∀ r ∈ order, ∀ s ∈ store, s.id ≠ r.id := by
    intro r hr
    exact hfresh r (hperm.mem_iff.mp hr)
  obtain ⟨out, h1, h2, h3, h4⟩ := runSubmissions_complete order store hnd2 hfresh2
  refine ⟨out, h1, ?_, h3, ?_⟩
  · intro r hr
    exact h2 r (hperm.mem_iff.mpr hr)
  · rw [h4, hperm.length_eq]

/-- C8 witness: two concurrent submissions landing in swapped order both end
up stored. -/
theorem concurrent_submissions_no_lost_updates_witness :
    ∃ out, runSubmissions []
        [sampleRecord "s2" 2 1 1 1, sampleRecord "s1" 1 2 2 2] = some out ∧
      sampleRecord "s1" 1 2 2 2 ∈ out ∧ sampleRecord "s2" 2 1 1 1 ∈ out ∧
      out.length = 2 := by
  obtain ⟨out, h1, h2, h3, h4⟩ := concurrent_submissions_no_lost_updates []
    [sampleRecord "s1" 1 2 2 2, sampleRecord "s2" 2 1 1 1]
    [sampleRecord "s2" 2 1 1 1, sampleRecord "s1" 1 2 2 2]
    (List.Perm.swap (sampleRecord "s1" 1 2 2 2) (sampleRecord "s2" 2 1 1 1) [])
    (by decide)
    (by intro r hr s hs; exact absurd hs (List.not_mem_nil s))
  refine ⟨out, h1, h2 _ (List.mem_cons_self _ _),
    h2 _ (List.mem_cons_of_mem _ (List.mem_singleton_self _)), by simpa using h4⟩

end CvReview
